import Mathlib

/-!
Shallow embedding of the `bbc_learning_english_podcast_spider` repository
(`spiders/six_minutes_english.py`, `pipelines.py`, `items.py`).

Python strings are modelled as `List Char`; values that may be Python
`None` are modelled as `Option`.  The filesystem is modelled as a map
from path strings to `Option Nat` (`none` = no file, `some n` = regular
file of size `n`).  The openpyxl workbook used by `ExcelPipeline` is
modelled, per the spec's interface section, as an abstract row store
(a list of rows persisted at a path).
-/

/-- Convert a Lean string literal to the `List Char` representation. -/
def strL (s : String) : List Char := s.data

/-- Python `\s` / `str.split()` whitespace (ASCII range). -/
def isSpaceC (c : Char) : Bool :=
  c == ' ' || c == '\t' || c == '\n' || c == '\r' || c == '\x0b' || c == '\x0c'

/-- Python `\d` (ASCII range). -/
def isDigitC (c : Char) : Bool := decide ('0' ≤ c) && decide (c ≤ '9')

/-- Python `\w` (ASCII range): alphanumeric or underscore. -/
def isWordC (c : Char) : Bool := c.isAlphanum || c == '_'

/-- Python `str.strip()`: drop leading and trailing whitespace. -/
def pyStrip (l : List Char) : List Char :=
  ((l.dropWhile isSpaceC).reverse.dropWhile isSpaceC).reverse

/-- Helper for `pySplitWs`: accumulates the current word (reversed). -/
def pySplitWsAux : List Char → List Char → List (List Char)
  | [], acc => if acc.isEmpty then [] else [acc.reverse]
  | c :: cs, acc =>
    if isSpaceC c then
      if acc.isEmpty then pySplitWsAux cs [] else acc.reverse :: pySplitWsAux cs []
    else pySplitWsAux cs (c :: acc)

/-- Python `str.split()` with no argument: split on whitespace runs, dropping empties. -/
def pySplitWs (l : List Char) : List (List Char) := pySplitWsAux l []

/-- `" ".join(raw.split())` — the whitespace normalization in `_extract_date_and_year`. -/
def normalizeWs (l : List Char) : List Char := List.intercalate [' '] (pySplitWs l)

/-- Python `x or default` for an optional string (falsy = `None` or empty). -/
def pyOr (o : Option (List Char)) (d : List Char) : List Char :=
  match o with
  | none => d
  | some s => if s.isEmpty then d else s

/-- Python `s or default` for a plain string (falsy = empty). -/
def pyOrS (s d : List Char) : List Char := if s.isEmpty then d else s

/-- Python truthiness of an optional string. -/
def pyTruthyO (o : Option (List Char)) : Bool :=
  match o with
  | none => false
  | some s => !s.isEmpty

/-- Python `str.capitalize()`: first character upper-cased, the rest lower-cased. -/
def pyCapitalize (l : List Char) : List Char :=
  match l with
  | [] => []
  | c :: cs => c.toUpper :: cs.map Char.toLower

/-- Python `str.lower()` (ASCII). -/
def toLowerL (l : List Char) : List Char := l.map Char.toLower

/-! ### The date regex `(\d{1,2}\s+\w+\s+(\d{4}))`

`re.search` semantics specialised to this pattern.  Because `\s`, `\w`
and `\d` are pairwise disjoint character classes at every boundary of
the pattern, the greedy backtracking search is equivalent to taking
maximal runs, except for `\d{1,2}` which prefers two digits and falls
back to one. -/

/-- `\d{4}` at the head of the list (further characters may follow). -/
def fourDigits : List Char → Option (List Char)
  | d1 :: d2 :: d3 :: d4 :: _ =>
    if isDigitC d1 && isDigitC d2 && isDigitC d3 && isDigitC d4 then
      some [d1, d2, d3, d4]
    else none
  | _ => none

/-- Match `\s+\w+\s+(\d{4})` at the head of `s`; `pre` is the already
consumed `\d{1,2}` part.  Returns `(group1, group2)`. -/
def matchTail (pre s : List Char) : Option (List Char × List Char) :=
  let ws1 := s.takeWhile isSpaceC
  let s1 := s.dropWhile isSpaceC
  if ws1.isEmpty then none else
  let w := s1.takeWhile isWordC
  let s2 := s1.dropWhile isWordC
  if w.isEmpty then none else
  let ws2 := s2.takeWhile isSpaceC
  let s3 := s2.dropWhile isSpaceC
  if ws2.isEmpty then none else
  match fourDigits s3 with
  | some ds => some (pre ++ ws1 ++ w ++ ws2 ++ ds, ds)
  | none => none

/-- Match the whole pattern anchored at the head of the list
(`\d{1,2}` greedy: two digits preferred, backtracking to one). -/
def matchFrom : List Char → Option (List Char × List Char)
  | [] => none
  | [_] => none
  | c1 :: c2 :: rest2 =>
    if isDigitC c1 then
      if isDigitC c2 then
        match matchTail [c1, c2] rest2 with
        | some r => some r
        | none => matchTail [c1] (c2 :: rest2)
      else matchTail [c1] (c2 :: rest2)
    else none

/-- `re.search`: leftmost position at which the pattern matches. -/
def searchDMY : List Char → Option (List Char × List Char)
  | [] => none
  | c :: rest =>
    match matchFrom (c :: rest) with
    | some r => some r
    | none => searchDMY rest

/-- `SixMinuteEnglishSpider._extract_date_and_year` (six_minutes_english.py,
lines 61-71).  Returns the pair `(release_date, release_year)`;
`(none, none)` corresponds to Python's `return None, None`. -/
def extract_date_and_year (raw_text : Option (List Char)) :
    Option (List Char) × Option (List Char) :=
  let raw := normalizeWs (raw_text.getD [])
  match searchDMY raw with
  | none => (none, none)
  | some r => (some (pyStrip r.1), some r.2)

/-! ### Filename sanitizers -/

/-- The character class of `re.sub(r'[\\/*?:"<>|]', "", ...)`. -/
def illegalChar (c : Char) : Bool :=
  c == '\\' || c == '/' || c == '*' || c == '?' || c == ':' ||
  c == '"' || c == '<' || c == '>' || c == '|'

/-- `re.sub(r'[\\/*?:"<>|]', "", name)`: delete every illegal character. -/
def removeIllegal (l : List Char) : List Char := l.filter (fun c => !illegalChar c)

/-- `SixMinuteEnglishSpider._sanitize_filename` (six_minutes_english.py,
lines 73-77): `re.sub(r'[\\/*?:"<>|]', "", name).strip()`. -/
def sanitize_filename (name : List Char) : List Char := pyStrip (removeIllegal name)

/-- `_sanitize` (pipelines.py, lines 17-20):
`re.sub(r'[\\/*?:"<>|]', "", (name or "").strip()) or "Unknown"`. -/
def _sanitize (name : Option (List Char)) : List Char :=
  pyOrS (removeIllegal (pyStrip (name.getD []))) (strL "Unknown")

/-! ### Listing page model and `SixMinuteEnglishSpider.parse` -/

/-- One `.widget-bbcle-coursecontentlist .text` block of the listing page:
the selector results the code reads from it. -/
structure ListingBlock where
  /-- `block.css("h2 a::attr(href)").get()` -/
  link : Option (List Char)
  /-- `block.css("h2 a::text").get()` -/
  titleText : Option (List Char)
  /-- `block.css(".details h3 b::text").get()` -/
  numberText : Option (List Char)
  /-- `block.css(".details h3 ::text").getall()` -/
  detailTexts : List (List Char)
deriving DecidableEq, Repr

/-- The request `parse` yields for an accepted block: the absolute URL plus
the `meta` dict passed to `parse_podcast`. -/
structure DetailRequest where
  url : List Char
  meta_title : List Char
  meta_number : List Char
  meta_release_date : Option (List Char)
  meta_release_year : Option (List Char)
deriving DecidableEq, Repr

/-- The year-filter condition on six_minutes_english.py line 103:
`self.target_years and (release_year is None or release_year not in
self.target_years)`.  `target` is `self.target_years` (`none` when the
`years` argument was absent). -/
def yearRejected (target : Option (List (List Char))) (ry : Option (List Char)) : Bool :=
  match target with
  | none => false
  | some ys =>
    !ys.isEmpty &&
      (match ry with
       | none => true
       | some y => !(decide (y ∈ ys)))

/-- Loop body of `SixMinuteEnglishSpider.parse` (six_minutes_english.py,
lines 88-118) over the listing blocks, threading the `seen` set.
`uj` is `response.urljoin`. -/
def parseAux (target : Option (List (List Char))) (uj : List Char → List Char) :
    List (List Char) → List ListingBlock → List DetailRequest
  | _, [] => []
  | seen, b :: bs =>
    if pyTruthyO b.link = false then parseAux target uj seen bs
    else
      let title := pyStrip (b.titleText.getD [])
      let number := pyStrip (b.numberText.getD [])
      let details_text := List.intercalate [' '] b.detailTexts
      let rdry := extract_date_and_year (some details_text)
      if yearRejected target rdry.2 then parseAux target uj seen bs
      else
        let full := uj (b.link.getD [])
        if full ∈ seen then parseAux target uj seen bs
        else
          ⟨full, title, number, rdry.1, rdry.2⟩ ::
            parseAux target uj (full :: seen) bs

/-- `SixMinuteEnglishSpider.parse`: the sequence of detail-page requests
yielded for one listing response. -/
def parseListing (target : Option (List (List Char))) (uj : List Char → List Char)
    (blocks : List ListingBlock) : List DetailRequest :=
  parseAux target uj [] blocks

/-- The request `parse` builds from a block (the yield on line 118). -/
def mkRequest (uj : List Char → List Char) (b : ListingBlock) : DetailRequest :=
  let rdry := extract_date_and_year (some (List.intercalate [' '] b.detailTexts))
  ⟨uj (b.link.getD []), pyStrip (b.titleText.getD []),
    pyStrip (b.numberText.getD []), rdry.1, rdry.2⟩

/-- The release year `parse` computes for a block. -/
def blockYear (b : ListingBlock) : Option (List Char) :=
  (extract_date_and_year (some (List.intercalate [' '] b.detailTexts))).2

/-- A block that survives the link check and the year filter. -/
def blockAccepted (target : Option (List (List Char))) (b : ListingBlock) : Bool :=
  pyTruthyO b.link && !yearRejected target (blockYear b)

/-- First block of the listing, in document order, that is accepted and
whose link resolves to the absolute URL `u`. -/
def firstAccepted (target : Option (List (List Char))) (uj : List Char → List Char)
    (u : List Char) : List ListingBlock → Option ListingBlock
  | [] => none
  | b :: bs =>
    if blockAccepted target b && decide (uj (b.link.getD []) = u) then some b
    else firstAccepted target uj u bs

/-! ### `SixMinuteEnglishSpider.parse_podcast` and the asset paths -/

/-- The item dict of `items.py` (`SixMinuteEnglishPodcastSpiderItem`);
every field may be absent/`None`. -/
structure PodcastItem where
  number : Option (List Char)
  title : Option (List Char)
  url : Option (List Char)
  release_date : Option (List Char)
  release_year : Option (List Char)
  pdf_url : Option (List Char)
  mp3_url : Option (List Char)
  pdf_path : Option (List Char)
  mp3_path : Option (List Char)
deriving DecidableEq, Repr

/-- The selector results `parse_podcast` reads from a detail response. -/
structure DetailDoc where
  /-- `response.url` -/
  url : List Char
  /-- `response.css("h1::text").get()` -/
  h1Text : Option (List Char)
  /-- `response.css(".text .details h3 > b::text").get()` -/
  detailsBText : Option (List Char)
  /-- `response.css(".download.bbcle-download-extension-pdf::attr(href)").get()` -/
  pdfHref : Option (List Char)
  /-- `response.css(".download.bbcle-download-extension-mp3::attr(href)").get()` -/
  mp3Href : Option (List Char)
deriving DecidableEq, Repr

/-- Metadata portion of `SixMinuteEnglishSpider.parse_podcast`
(six_minutes_english.py, lines 124-140): populate the item from `meta`,
extract the asset URLs, and apply the title/number fallbacks. -/
def parse_podcast_meta (doc : DetailDoc) (m : DetailRequest) : PodcastItem :=
  let title0 := m.meta_title
  let number0 := m.meta_number
  let title := if title0.isEmpty then pyStrip (doc.h1Text.getD []) else title0
  let number := if number0.isEmpty then pyStrip (doc.detailsBText.getD []) else number0
  ⟨some number, some title, some doc.url, m.meta_release_date, m.meta_release_year,
    doc.pdfHref, doc.mp3Href, none, none⟩

/-- `self.name` of the spider. -/
def spiderName : List Char := strL "six_minutes_english"

/-- `self.podcast_brand` set in `__init__`. -/
def podcastBrand : List Char := strL "BBC_English_Podcast"

/-- `pathlib`'s `/` on string form: join with a single slash. -/
def pjoin (a b : List Char) : List Char := a ++ '/' :: b

/-- `base_dir_subfolder` of `parse_podcast` (lines 143-144):
`Path.home() / "Documents" / self.podcast_brand / self.name.capitalize()
/ (item["release_year"] or "Unknown_Year")`. -/
def baseDirSubfolder (home : List Char) (ry : Option (List Char)) : List Char :=
  pjoin (pjoin (pjoin (pjoin home (strL "Documents")) podcastBrand)
      (pyCapitalize spiderName))
    (pyOr ry (strL "Unknown_Year"))

/-- The pdf path `parse_podcast` computes (lines 147-149):
`base_dir_subfolder / (self._sanitize_filename(item["title"] or "Unknown") + ".pdf")`.
`title` is `item["title"]` after the fallback (a plain string). -/
def parsePodcastPdfPath (home title : List Char) (ry : Option (List Char)) : List Char :=
  pjoin (baseDirSubfolder home ry)
    (sanitize_filename (pyOrS title (strL "Unknown")) ++ strL ".pdf")

/-- The mp3 path `parse_podcast` computes (lines 154-156). -/
def parsePodcastMp3Path (home title : List Char) (ry : Option (List Char)) : List Char :=
  pjoin (baseDirSubfolder home ry)
    (sanitize_filename (pyOrS title (strL "Unknown")) ++ strL ".mp3")

/-- A filesystem: path string to `none` (no file) or `some size`. -/
def FsModel : Type := List Char → Option Nat

/-- Outcome of one asset block of `parse_podcast`: whether a download
request was yielded, and the path field stored in the item. -/
structure AssetStep where
  requested : Bool
  pathSet : Option (List Char)
deriving DecidableEq, Repr

/-- The pdf block of `parse_podcast` (lines 147-152):
`if item["pdf_url"]: ... if not pdf_path.exists(): yield Request(...)`.
A download is requested exactly when no file exists at the path —
the size of an existing file is never consulted. -/
def spiderPdfStep (fs : FsModel) (home title : List Char) (ry : Option (List Char))
    (pdf_url : Option (List Char)) : AssetStep :=
  if pyTruthyO pdf_url then
    let p := parsePodcastPdfPath home title ry
    ⟨(fs p).isNone, some p⟩
  else ⟨false, none⟩

/-- The mp3 block of `parse_podcast` (lines 154-159). -/
def spiderMp3Step (fs : FsModel) (home title : List Char) (ry : Option (List Char))
    (mp3_url : Option (List Char)) : AssetStep :=
  if pyTruthyO mp3_url then
    let p := parsePodcastMp3Path home title ry
    ⟨(fs p).isNone, some p⟩
  else ⟨false, none⟩

/-! ### `CustomFilesPipeline` (pipelines.py) -/

/-- `PurePath.name` for the URL strings fed to `Path(...)`: last
non-empty, non-`"."` slash-separated component. -/
def pathName (url : List Char) : List Char :=
  ((url.splitOn '/').filter (fun seg => !seg.isEmpty && seg ≠ strL ".")).getLastD []

/-- `PurePath.suffix`: the part of the name from its last dot, empty when
the name has no dot, starts with its only dot, or ends with the dot. -/
def pySuffix (name : List Char) : List Char :=
  let revTail := name.reverse.takeWhile (fun c => decide (c ≠ '.'))
  if revTail.length + 1 < name.length && 0 < revTail.length then
    '.' :: revTail.reverse
  else []

/-- `Path(url).suffix.lower()`. -/
def suffixLower (url : List Char) : List Char := toLowerL (pySuffix (pathName url))

/-- `CustomFilesPipeline.file_path` (pipelines.py, lines 62-71):
`f"{spider_dir}/{year}/{title}{ext}"` relative to `FILES_STORE`. -/
def file_path (reqUrl : List Char) (item : PodcastItem) : List Char :=
  pyCapitalize spiderName ++ '/' ::
    (pyOr item.release_year (strL "Unknown") ++ '/' ::
      (_sanitize item.title ++ suffixLower reqUrl))

/-- `abs_path` of `CustomFilesPipeline.get_media_requests` (lines 44-45):
`store_root / spider_dir / year / f"{title}{ext}"`. -/
def gmrAbsPath (store : List Char) (item : PodcastItem) (url : List Char) : List Char :=
  pjoin store
    (pjoin (pyCapitalize spiderName)
      (pjoin (pyOr item.release_year (strL "Unknown"))
        (_sanitize item.title ++ suffixLower url)))

/-- Outcome of one `ftype` iteration of `get_media_requests`
(lines 39-60): whether a download request was yielded, the item path
field set on skip, and the stats key incremented on skip. -/
structure GmrStep where
  requested : Bool
  pathSet : Option (List Char)
  statKey : Option (List Char)
deriving DecidableEq, Repr

/-- One iteration of the `for ftype in ["pdf_url", "mp3_url"]` loop of
`CustomFilesPipeline.get_media_requests`: skip (no request) exactly when
a file exists at the computed path with size strictly greater than zero. -/
def gmrAsset (fs : FsModel) (store : List Char) (item : PodcastItem)
    (url : Option (List Char)) : GmrStep :=
  if pyTruthyO url then
    let u := url.getD []
    let ext := suffixLower u
    let p := gmrAbsPath store item u
    if (match fs p with | some n => decide (0 < n) | none => false) then
      ⟨false, some p,
        some (if ext = strL ".pdf" then strL "files/pdf_skipped"
              else strL "files/mp3_skipped")⟩
    else ⟨true, none, none⟩
  else ⟨false, none, none⟩

/-! ### Crawler stats (`spider.crawler.stats`) -/

/-- The stats store: association list from key to counter value. -/
def StatsModel : Type := List (List Char × Nat)

/-- `stats.inc_value(key)`: add one to the key's counter (default 0). -/
def incValue : StatsModel → List Char → StatsModel
  | [], k => [(k, 1)]
  | (k0, n) :: rest, k =>
    if k0 = k then (k0, n + 1) :: rest else (k0, n) :: incValue rest k

/-- `stats.get_stats().get(key, d)`: dict lookup with default. -/
def statGet (st : StatsModel) (k : List Char) (d : Nat) : Nat :=
  match st with
  | [] => d
  | (k0, n) :: rest => if k0 = k then n else statGet rest k d

/-- Every key the repository's own code ever passes to
`stats.inc_value`: the four `files/...` keys of `CustomFilesPipeline`
(pipelines.py lines 49-51, 88, 91).  No other call site exists in the
source; in particular nothing increments `episodes/scheduled` or
`episodes/fetched`, although `ExcelPipeline.close_spider` reads them. -/
def srcIncKeys : List (List Char) :=
  [strL "files/pdf_skipped", strL "files/mp3_skipped",
   strL "files/pdf_downloaded", strL "files/mp3_downloaded"]

/-! ### `ExcelPipeline` (pipelines.py, lines 95-176)

The openpyxl workbook is modelled as an abstract row store: a list of
rows (cells may be `None`), persisted at the ledger path.  `load_workbook`
returns the persisted rows; `Workbook()` starts empty. -/

/-- One worksheet row. -/
def Row : Type := List (Option (List Char))

/-- The header appended when no ledger file exists (lines 114-126). -/
def headerRow : Row :=
  [some (strL "Title"), some (strL "PDF URL"), some (strL "PDF Path"),
   some (strL "MP3 URL"), some (strL "MP3 Path"), some (strL "Page URL"),
   some (strL "Release Date"), some (strL "Release Year"), some (strL "Status")]

/-- The row `ExcelPipeline.process_item` appends (lines 132-144). -/
def rowOfItem (item : PodcastItem) : Row :=
  [item.title, item.pdf_url, item.pdf_path, item.mp3_url, item.mp3_path,
   item.url, item.release_date, item.release_year, some (strL "Downloaded")]

/-- In-memory worksheet plus the file on disk (`none` = no ledger file). -/
structure ExcelState where
  sheet : List Row
  disk : Option (List Row)

/-- `ExcelPipeline.open_spider` (lines 102-129): load the workbook when
the file exists, else create one, append the header and save it. -/
def open_spider (disk : Option (List Row)) : ExcelState :=
  match disk with
  | some rows => ⟨rows, some rows⟩
  | none => ⟨[headerRow], some [headerRow]⟩

/-- `ExcelPipeline.process_item` (lines 131-147): append one row. -/
def process_item (st : ExcelState) (item : PodcastItem) : ExcelState :=
  ⟨st.sheet ++ [rowOfItem item], st.disk⟩

/-- The save in `ExcelPipeline.close_spider` (line 150). -/
def close_spider (st : ExcelState) : ExcelState :=
  ⟨st.sheet, some st.sheet⟩

/-- One whole run of the `ExcelPipeline`: open, append each scraped
item in order, close. -/
def runLedger (disk : Option (List Row)) (items : List PodcastItem) : ExcelState :=
  close_spider (items.foldl process_item (open_spider disk))

/-! ### Spec-side definition and concrete inputs -/

/-- Modelled from the spec: the `localPath` composition of §4.4 —
`archiveRoot / collectionName / (releaseYear or fallback) / "<safeTitle><ext>"`
(the spec's fallback segment is the literal `"Unknown"`; it is kept as a
parameter so the source functions can be compared against it). -/
def assetPathSpec (root coll : List Char) (ry : Option (List Char))
    (fallback sanTitle ext : List Char) : List Char :=
  pjoin (pjoin (pjoin root coll) (pyOr ry fallback)) (sanTitle ++ ext)

/-- A listing block whose details text carries no parsable date. -/
def cbDup0 : ListingBlock :=
  ⟨some (strL "/ep1"), some (strL "first"), none, [strL "no date"]⟩

/-- A listing block with the same link as `cbDup0` and a 2025 date. -/
def cbDup1 : ListingBlock :=
  ⟨some (strL "/ep1"), some (strL "second"), none, [strL "28 Aug 2025"]⟩

/-- A single well-formed accepted listing block. -/
def cbOne : ListingBlock :=
  ⟨some (strL "/ep1"), some (strL "T"), none, [strL "28 Aug 2025"]⟩

/-- The pdf path `parse_podcast` computes for a concrete episode. -/
def c2Path : List Char :=
  parsePodcastPdfPath (strL "/root") (strL "Hello") (some (strL "2025"))

/-- A filesystem holding exactly one zero-byte file, at `c2Path`. -/
def c2Fs : FsModel := fun p => if p = c2Path then some 0 else none

/-- A concrete item: title "Hello", year 2025, only a pdf URL. -/
def cItemA : PodcastItem :=
  ⟨none, some (strL "Hello"), none, none, some (strL "2025"),
    some (strL "http://x/a.pdf"), none, none, none⟩

/-- Same title and year as `cItemA`, every other field different. -/
def cItemB : PodcastItem :=
  ⟨some (strL "9"), some (strL "Hello"), some (strL "pageB"),
    some (strL "28 Aug 2025"), some (strL "2025"),
    none, some (strL "http://x/b.mp3"), some (strL "q"), some (strL "r")⟩

/-- A detail document with a heading and both asset links. -/
def cDoc : DetailDoc :=
  ⟨strL "https://www.bbc.co.uk/ep1", some (strL " Detail Heading "),
    some (strL "Episode 250828"), some (strL "http://x/a.pdf"),
    some (strL "http://x/a.mp3")⟩

/-- A request whose listing hints are both empty. -/
def cReqEmptyHints : DetailRequest :=
  ⟨strL "https://www.bbc.co.uk/ep1", [], [], none, none⟩

/-! ## Helper lemmas -/

theorem space_cases {c : Char} (h : isSpaceC c = true) :
    c = ' ' ∨ c = '\t' ∨ c = '\n' ∨ c = '\r' ∨ c = '\x0b' ∨ c = '\x0c' := by
  simp only [isSpaceC, Bool.or_eq_true, beq_iff_eq] at h
  tauto

theorem digit_not_space {c : Char} (h : isDigitC c = true) : isSpaceC c = false := by
  cases hs : isSpaceC c
  · rfl
  · exfalso
    rcases space_cases hs with rfl | rfl | rfl | rfl | rfl | rfl <;>
      exact absurd h (by decide)

theorem dropWhile_eq_self_of_head {p : Char → Bool} :
    ∀ {l : List Char}, (∀ c, l.head? = some c → p c = false) → l.dropWhile p = l
  | [], _ => rfl
  | c :: t, h => by simp [List.dropWhile_cons, h c rfl]

theorem pyStrip_eq_self {l : List Char}
    (h1 : ∀ c, l.head? = some c → isSpaceC c = false)
    (h2 : ∀ c, l.getLast? = some c → isSpaceC c = false) : pyStrip l = l := by
  unfold pyStrip
  rw [dropWhile_eq_self_of_head h1]
  rw [dropWhile_eq_self_of_head (p := isSpaceC) (fun c hc => h2 c ?_),
    List.reverse_reverse]
  rwa [List.head?_reverse] at hc

theorem fourDigits_spec {s ds : List Char} (h : fourDigits s = some ds) :
    ∃ d1 d2 d3 d4, ds = [d1, d2, d3, d4] ∧ ∀ c ∈ ds, isDigitC c = true := by
  unfold fourDigits at h
  split at h
  case h_1 d1 d2 d3 d4 rest =>
    split at h
    case isTrue hd =>
      simp only [Bool.and_eq_true] at hd
      obtain ⟨⟨⟨hd1, hd2⟩, hd3⟩, hd4⟩ := hd
      injection h with h
      refine ⟨d1, d2, d3, d4, h.symm, ?_⟩
      subst h
      intro c hc
      simp only [List.mem_cons, List.not_mem_nil, or_false] at hc
      rcases hc with rfl | rfl | rfl | rfl
      · exact hd1
      · exact hd2
      · exact hd3
      · exact hd4
    case isFalse => cases h
  case h_2 => cases h

theorem matchTail_spec {pre s g1 g2 : List Char}
    (h : matchTail pre s = some (g1, g2)) :
    (∀ c ∈ g2, isDigitC c = true) ∧ g2.length = 4 ∧ g2 <:+ g1 ∧
      (∃ t, g1 = pre ++ t) ∧ ∃ c, g1.getLast? = some c ∧ isDigitC c = true := by
  simp only [matchTail] at h
  split at h
  · cases h
  · split at h
    · cases h
    · split at h
      · cases h
      · split at h
        · next ds hds =>
            obtain ⟨d1, d2, d3, d4, rfl, hdig⟩ := fourDigits_spec hds
            injection h with h
            rw [Prod.mk.injEq] at h
            obtain ⟨h1, h2⟩ := h
            subst h2
            subst h1
            refine ⟨hdig, rfl, ⟨_, rfl⟩,
              ⟨_, by rw [List.append_assoc, List.append_assoc, List.append_assoc]⟩,
              d4, ?_, hdig d4 (by simp)⟩
            rw [List.getLast?_append_cons]
            simp
        · cases h


theorem matchTail_finish {pre s g1 g2 : List Char}
    (hpre : ∃ c t, pre = c :: t ∧ isDigitC c = true)
    (h : matchTail pre s = some (g1, g2)) :
    (∀ c ∈ g2, isDigitC c = true) ∧ g2.length = 4 ∧ g2 <:+ g1 ∧ pyStrip g1 = g1 := by
  obtain ⟨hdig, h4, hsuf, ⟨t, ht⟩, cl, hlast, hlastd⟩ := matchTail_spec h
  obtain ⟨c0, t0, rfl, hc0⟩ := hpre
  refine ⟨hdig, h4, hsuf, pyStrip_eq_self ?_ ?_⟩
  · intro c hc
    rw [ht] at hc
    simp only [List.cons_append, List.head?_cons] at hc
    injection hc with hc
    exact hc ▸ digit_not_space hc0
  · intro c hc
    rw [hlast] at hc
    injection hc with hc
    exact hc ▸ digit_not_space hlastd

theorem matchFrom_spec {s g1 g2 : List Char} (h : matchFrom s = some (g1, g2)) :
    (∀ c ∈ g2, isDigitC c = true) ∧ g2.length = 4 ∧ g2 <:+ g1 ∧ pyStrip g1 = g1 := by
  rcases s with _ | ⟨c1, _ | ⟨c2, rest2⟩⟩
  · simp [matchFrom] at h
  · simp [matchFrom] at h
  · simp only [matchFrom] at h
    split at h
    · next hd1 =>
        split at h
        · next hd2 =>
            split at h
            · next r hr =>
                injection h with h
                subst h
                exact matchTail_finish ⟨c1, [c2], rfl, hd1⟩ hr
            · next hr =>
                exact matchTail_finish ⟨c1, [], rfl, hd1⟩ h
        · next hd2 =>
            exact matchTail_finish ⟨c1, [], rfl, hd1⟩ h
    · next => cases h

theorem searchDMY_spec : ∀ {l g1 g2 : List Char}, searchDMY l = some (g1, g2) →
    (∀ c ∈ g2, isDigitC c = true) ∧ g2.length = 4 ∧ g2 <:+ g1 ∧ pyStrip g1 = g1 := by
  intro l
  induction l with
  | nil => intro g1 g2 h; cases h
  | cons c rest ih =>
    intro g1 g2 h
    simp only [searchDMY] at h
    split at h
    case h_1 r hr =>
      injection h with h
      subst h
      exact matchFrom_spec hr
    case h_2 => exact ih h

theorem mem_of_mem_pyStrip {c : Char} {l : List Char} (h : c ∈ pyStrip l) : c ∈ l := by
  unfold pyStrip at h
  rw [List.mem_reverse] at h
  have h2 := List.Sublist.mem h (List.dropWhile_sublist _)
  rw [List.mem_reverse] at h2
  exact List.Sublist.mem h2 (List.dropWhile_sublist _)

theorem firstAccepted_accepted {target : Option (List (List Char))}
    {uj : List Char → List Char} {u : List Char} :
    ∀ {bs : List ListingBlock} {b : ListingBlock},
      firstAccepted target uj u bs = some b →
      blockAccepted target b = true ∧ uj (b.link.getD []) = u := by
  intro bs
  induction bs with
  | nil => intro b h; cases h
  | cons b0 bs ih =>
    intro b h
    simp only [firstAccepted] at h
    split at h
    · next hc =>
        injection h with h
        subst h
        simp only [Bool.and_eq_true, decide_eq_true_eq] at hc
        exact hc
    · exact ih h

theorem parseAux_sound {target : Option (List (List Char))} {uj : List Char → List Char} :
    ∀ (bs : List ListingBlock) (seen : List (List Char)) (r : DetailRequest),
      r ∈ parseAux target uj seen bs →
      r.url ∉ seen ∧
        ∃ b, firstAccepted target uj r.url bs = some b ∧ r = mkRequest uj b := by
  intro bs
  induction bs with
  | nil => intro seen r h; simp [parseAux] at h
  | cons b bs ih =>
    intro seen r h
    simp only [parseAux] at h
    split at h
    · next hl =>
        obtain ⟨hseen, b2, hfa, hr⟩ := ih seen r h
        refine ⟨hseen, b2, ?_, hr⟩
        simp only [firstAccepted, blockAccepted, hl, Bool.false_and, Bool.and_eq_true,
          false_and, if_false]
        exact hfa
    · next hl =>
        simp only [Bool.not_eq_false] at hl
        split at h
        · next hyr =>
            obtain ⟨hseen, b2, hfa, hr⟩ := ih seen r h
            refine ⟨hseen, b2, ?_, hr⟩
            simp only [firstAccepted, blockAccepted, blockYear, hyr, Bool.not_true,
              Bool.and_false, Bool.false_and, if_false]
            exact hfa
        · next hyr =>
            simp only [Bool.not_eq_true] at hyr
            split at h
            · next hin =>
                obtain ⟨hseen, b2, hfa, hr⟩ := ih seen r h
                have hne : uj (b.link.getD []) ≠ r.url := fun he => hseen (he ▸ hin)
                refine ⟨hseen, b2, ?_, hr⟩
                simp only [firstAccepted, hne, decide_False, Bool.and_false, if_false]
                exact hfa
            · next hin =>
                cases h with
                | head =>
                  refine ⟨hin, b, ?_, rfl⟩
                  simp only [firstAccepted, blockAccepted, blockYear, hl, hyr,
                    Bool.not_false, Bool.and_true, Bool.true_and, decide_True, if_true]
                | tail _ hmem =>
                  obtain ⟨hseen, b2, hfa, hr⟩ := ih _ r hmem
                  have hne : r.url ≠ uj (b.link.getD []) :=
                    fun he => hseen (he ▸ List.mem_cons_self _ _)
                  refine ⟨fun hs => hseen (List.mem_cons_of_mem _ hs), b2, ?_, hr⟩
                  simp only [firstAccepted, hne.symm, decide_False, Bool.and_false,
                    if_false]
                  exact hfa

theorem parseAux_urls_nodup {target : Option (List (List Char))}
    {uj : List Char → List Char} :
    ∀ (bs : List ListingBlock) (seen : List (List Char)),
      ((parseAux target uj seen bs).map DetailRequest.url).Nodup := by
  intro bs
  induction bs with
  | nil => intro seen; simp [parseAux]
  | cons b bs ih =>
    intro seen
    simp only [parseAux]
    split
    · exact ih seen
    · split
      · exact ih seen
      · split
        · exact ih seen
        · next hin =>
            simp only [List.map_cons, List.nodup_cons]
            refine ⟨?_, ih (uj (b.link.getD []) :: seen)⟩
            intro hmem
            obtain ⟨r, hr, hurl⟩ := List.mem_map.mp hmem
            have hns := (parseAux_sound bs (uj (b.link.getD []) :: seen) r hr).1
            exact hns (by rw [hurl]; exact List.mem_cons_self _ _)

theorem statGet_incValue_ne {k0 k : List Char} (hne : k0 ≠ k) :
    ∀ (st : StatsModel) (d : Nat), statGet (incValue st k0) k d = statGet st k d := by
  intro st
  induction st with
  | nil => intro d; simp [incValue, statGet, hne]
  | cons p rest ih =>
    intro d
    obtain ⟨kp, np⟩ := p
    simp only [incValue]
    split
    · next heq =>
        subst heq
        simp [statGet, hne]
    · next hne2 =>
        by_cases hk : kp = k <;> simp [statGet, hk, ih]

theorem statGet_foldl_not_mem {k : List Char} :
    ∀ (evs : List (List Char)) (st : StatsModel) (d : Nat), k ∉ evs →
      statGet (evs.foldl incValue st) k d = statGet st k d := by
  intro evs
  induction evs with
  | nil => intro st d _; rfl
  | cons e evs ih =>
    intro st d h
    simp only [List.foldl_cons]
    rw [ih _ _ (fun hm => h (List.mem_cons_of_mem _ hm))]
    exact statGet_incValue_ne (fun he => h (by rw [he]; exact List.mem_cons_self _ _)) st d

theorem foldl_process_item_sheet :
    ∀ (items : List PodcastItem) (st : ExcelState),
      (items.foldl process_item st).sheet = st.sheet ++ items.map rowOfItem := by
  intro items
  induction items with
  | nil => intro st; simp
  | cons it items ih =>
    intro st
    simp only [List.foldl_cons, List.map_cons]
    rw [ih]
    simp [process_item, List.append_assoc]

theorem existsPos_of_match {o : Option Nat}
    (h : (match o with | some n => decide (0 < n) | none => false) = true) :
    ∃ n, o = some n ∧ 0 < n := by
  cases o with
  | none => cases h
  | some n => exact ⟨n, rfl, of_decide_eq_true h⟩

theorem match_of_existsPos {o : Option Nat} (h : ∃ n, o = some n ∧ 0 < n) :
    (match o with | some n => decide (0 < n) | none => false) = true := by
  obtain ⟨n, rfl, hn⟩ := h
  exact decide_eq_true hn

/-! ## Claim theorems -/

/-- C1: for every listing entry processed by `parse`: if the configured
year set is unset (`none`) or empty, the entry is accepted; otherwise it
is accepted iff its parsed release year is present and a member of the
set (unparsable years are rejected); and a detail-page request is
yielded only for entries that pass the year filter. -/
theorem C1_year_filter :
    (∀ ry, yearRejected none ry = false) ∧
    (∀ ry, yearRejected (some []) ry = false) ∧
    (∀ ys ry, ys ≠ [] →
      (yearRejected (some ys) ry = false ↔ ∃ y, ry = some y ∧ y ∈ ys)) ∧
    (∀ target uj blocks, ∀ r ∈ parseListing target uj blocks,
      yearRejected target r.meta_release_year = false) := by
  refine ⟨fun ry => rfl, fun ry => by cases ry <;> rfl, ?_, ?_⟩
  · intro ys ry hys
    obtain ⟨a, as, rfl⟩ := List.exists_cons_of_ne_nil hys
    cases ry with
    | none => simp [yearRejected]
    | some y =>
      simp only [yearRejected, List.isEmpty_cons, Bool.not_false, Bool.true_and,
        Bool.not_eq_false', decide_eq_true_eq, Option.some.injEq]
      constructor
      · intro hm
        exact ⟨y, rfl, hm⟩
      · rintro ⟨y2, rfl, hm⟩
        exact hm
  · intro target uj blocks r hr
    obtain ⟨_, b, hfa, rfl⟩ := parseAux_sound blocks [] r hr
    have hacc := (firstAccepted_accepted hfa).1
    simp only [blockAccepted, Bool.and_eq_true] at hacc
    have hyr : yearRejected target (blockYear b) = false := by
      have h2 := hacc.2
      rwa [Bool.not_eq_true'] at h2
    simpa [mkRequest, blockYear] using hyr

/-- C1 witness: with the year set `{2025}`, a request yielded for a
block dated `28 Aug 2025` passes the filter, and the filter accepts a
present member year. -/
theorem C1_witness :
    yearRejected (some [strL "2025"])
      (mkRequest (fun u => u) cbOne).meta_release_year = false ∧
    yearRejected (some [strL "2025"]) (some (strL "2025")) = false := by
  constructor
  · exact C1_year_filter.2.2.2 (some [strL "2025"]) (fun u => u) [cbOne]
      (mkRequest (fun u => u) cbOne) (by decide)
  · exact (C1_year_filter.2.2.1 [strL "2025"] (some (strL "2025"))
      (by decide)).mpr ⟨strL "2025", rfl, by decide⟩

/-- C2 counterexample: a zero-byte file at the computed pdf path makes
`parse_podcast` suppress the download (it only checks `exists()`),
while the claim says a zero-byte file must be re-downloaded. -/
theorem C2_counterexample :
    c2Fs c2Path = some 0 ∧
    (spiderPdfStep c2Fs (strL "/root") (strL "Hello") (some (strL "2025"))
      (some (strL "http://x/a.pdf"))).requested = false := by
  exact ⟨by decide, by decide⟩

/-- C2 amended: `CustomFilesPipeline.get_media_requests` requests a
download iff the URL is non-empty and no file of size > 0 exists at the
computed path (so a zero-byte file is re-downloaded there); but the
spider's `parse_podcast` requests a download iff the URL is non-empty
and no file exists at all at its computed path, regardless of size. -/
theorem C2_skip_contract :
    (∀ (fs : FsModel) store item url, (gmrAsset fs store item url).requested = true ↔
        pyTruthyO url = true ∧
          ¬∃ n, fs (gmrAbsPath store item (url.getD [])) = some n ∧ 0 < n) ∧
    (∀ (fs : FsModel) home title ry pu,
        (spiderPdfStep fs home title ry pu).requested = true ↔
          pyTruthyO pu = true ∧ fs (parsePodcastPdfPath home title ry) = none) ∧
    (∀ (fs : FsModel) home title ry mu,
        (spiderMp3Step fs home title ry mu).requested = true ↔
          pyTruthyO mu = true ∧ fs (parsePodcastMp3Path home title ry) = none) := by
  refine ⟨?_, ?_, ?_⟩
  · intro fs store item url
    cases htr : pyTruthyO url with
    | false => simp [gmrAsset, htr]
    | true =>
      cases hfs : fs (gmrAbsPath store item (url.getD [])) with
      | none => simp [gmrAsset, htr, hfs]
      | some n =>
        cases hn : decide (0 < n) with
        | false =>
          have hyn := of_decide_eq_false hn
          simp [gmrAsset, htr, hfs, hn, hyn]
        | true =>
          have hyp := of_decide_eq_true hn
          simp [gmrAsset, htr, hfs, hn, hyp]
  · intro fs home title ry pu
    cases htr : pyTruthyO pu with
    | false => simp [spiderPdfStep, htr]
    | true =>
      cases hfs : fs (parsePodcastPdfPath home title ry) with
      | none => simp [spiderPdfStep, htr, hfs]
      | some n => simp [spiderPdfStep, htr, hfs]
  · intro fs home title ry mu
    cases htr : pyTruthyO mu with
    | false => simp [spiderMp3Step, htr]
    | true =>
      cases hfs : fs (parsePodcastMp3Path home title ry) with
      | none => simp [spiderMp3Step, htr, hfs]
      | some n => simp [spiderMp3Step, htr, hfs]

/-- C3 counterexample: with an absent release year, the year segment of
the path `parse_podcast` computes is the literal `Unknown_Year`, not the
`Unknown` the claim requires. -/
theorem C3_counterexample :
    ((parsePodcastPdfPath (strL "/root") (strL "Hello") none).splitOn '/').reverse[1]? =
      some (strL "Unknown_Year") ∧
    strL "Unknown_Year" ≠ strL "Unknown" := by
  exact ⟨by decide, by decide⟩

/-- C3 amended: the pipeline's `file_path` (joined under `FILES_STORE`)
is exactly the spec composition with year fallback `Unknown`, while the
spider's `parse_podcast` paths use the fallback segment `Unknown_Year`;
both are deterministic in (store/home, release year, title, extension)
— the path does not depend on any other item field. -/
theorem C3_path_composition :
    (∀ store url item, pjoin store (file_path url item) =
        assetPathSpec store (pyCapitalize spiderName) item.release_year
          (strL "Unknown") (_sanitize item.title) (suffixLower url)) ∧
    (∀ home title ry, parsePodcastPdfPath home title ry =
        assetPathSpec (pjoin (pjoin home (strL "Documents")) podcastBrand)
          (pyCapitalize spiderName) ry (strL "Unknown_Year")
          (sanitize_filename (pyOrS title (strL "Unknown"))) (strL ".pdf")) ∧
    (∀ home title ry, parsePodcastMp3Path home title ry =
        assetPathSpec (pjoin (pjoin home (strL "Documents")) podcastBrand)
          (pyCapitalize spiderName) ry (strL "Unknown_Year")
          (sanitize_filename (pyOrS title (strL "Unknown"))) (strL ".mp3")) ∧
    (∀ url item item2, item.release_year = item2.release_year →
      item.title = item2.title → file_path url item = file_path url item2) := by
  refine ⟨?_, ?_, ?_, ?_⟩
  · intro store url item
    simp [file_path, assetPathSpec, pjoin, List.append_assoc]
  · intro home title ry
    simp [parsePodcastPdfPath, assetPathSpec, baseDirSubfolder, pjoin,
      List.append_assoc]
  · intro home title ry
    simp [parsePodcastMp3Path, assetPathSpec, baseDirSubfolder, pjoin,
      List.append_assoc]
  · intro url item item2 h1 h2
    simp [file_path, h1, h2]

/-- C3 witness: two items agreeing on title and release year but
differing everywhere else produce the identical relative path. -/
theorem C3_witness :
    file_path (strL "http://x/a.pdf") cItemA = file_path (strL "http://x/a.pdf") cItemB :=
  C3_path_composition.2.2.2 (strL "http://x/a.pdf") cItemA cItemB (by decide) (by decide)

/-- C4 counterexample: two blocks resolve to the same absolute URL; the
first is rejected by the year filter, so the single yielded request is
built from the second occurrence, not the first as the claim states. -/
theorem C4_counterexample :
    parseListing (some [strL "2025"]) (fun u => u) [cbDup0, cbDup1] =
      [mkRequest (fun u => u) cbDup1] ∧
    mkRequest (fun u => u) cbDup0 ≠ mkRequest (fun u => u) cbDup1 := by
  exact ⟨by decide, by decide⟩

/-- C4 amended: within one `parse` call at most one detail request is
yielded per absolute URL (the yielded URLs are duplicate-free), and each
yielded request is built from the first block in document order that has
a truthy link, passes the year filter, and resolves to that URL. -/
theorem C4_dedup_first_accepted (target : Option (List (List Char)))
    (uj : List Char → List Char) (blocks : List ListingBlock) :
    ((parseListing target uj blocks).map DetailRequest.url).Nodup ∧
    ∀ r ∈ parseListing target uj blocks,
      ∃ b, firstAccepted target uj r.url blocks = some b ∧ r = mkRequest uj b := by
  constructor
  · exact parseAux_urls_nodup blocks []
  · intro r hr
    obtain ⟨_, b, hfa, hb⟩ := parseAux_sound blocks [] r hr
    exact ⟨b, hfa, hb⟩

/-- C4 witness: in the duplicate-URL listing, the single yielded request
is the one built from the first occurrence that passes the filter. -/
theorem C4_witness :
    ∃ b, firstAccepted (some [strL "2025"]) (fun u => u)
        (mkRequest (fun u => u) cbDup1).url [cbDup0, cbDup1] = some b ∧
      mkRequest (fun u => u) cbDup1 = mkRequest (fun u => u) b :=
  (C4_dedup_first_accepted (some [strL "2025"]) (fun u => u) [cbDup0, cbDup1]).2
    (mkRequest (fun u => u) cbDup1) (by decide)

/-- C5: the listing text `Episode 250828  /  28 Aug 2025` parses to
release date `28 Aug 2025` and year `2025`; and whenever the
day/month/year pattern does not match, both fields are `None` (the
function returns normally rather than raising). -/
theorem C5_date_extraction :
    extract_date_and_year (some (strL "Episode 250828  /  28 Aug 2025")) =
      (some (strL "28 Aug 2025"), some (strL "2025")) ∧
    ∀ raw : Option (List Char), searchDMY (normalizeWs (raw.getD [])) = none →
      extract_date_and_year raw = (none, none) := by
  constructor
  · decide
  · intro raw h
    simp [extract_date_and_year, h]

/-- C5 witness: a dateless text yields `(None, None)`. -/
theorem C5_witness :
    extract_date_and_year (some (strL "Episode teaser, coming soon")) = (none, none) :=
  C5_date_extraction.2 (some (strL "Episode teaser, coming soon")) (by decide)

/-- C6 counterexample: the spider's `_sanitize_filename` maps the
all-illegal title `???` to the empty string — no `Unknown` placeholder
is applied, contrary to the claim. -/
theorem C6_counterexample :
    sanitize_filename (strL "???") = [] ∧ ([] : List Char) ≠ strL "Unknown" := by
  exact ⟨by decide, by decide⟩

/-- C6 amended: both sanitizers remove exactly the characters
`\ / * ? : " < > |` (every output character is a non-illegal input
character); the pipeline's `_sanitize` — which strips surrounding
whitespace before removal — substitutes `Unknown` exactly when the
stripped-and-cleaned result is empty and therefore never returns an
empty string, while the spider's `_sanitize_filename` (remove, then
strip) has no placeholder; `A/B: Test?` with a `.pdf` asset yields
`AB Test.pdf` under both. -/
theorem C6_sanitizer :
    (∀ name c, c ∈ sanitize_filename name → illegalChar c = false ∧ c ∈ name) ∧
    (∀ name c, removeIllegal (pyStrip name) ≠ [] → c ∈ _sanitize (some name) →
      illegalChar c = false ∧ c ∈ name) ∧
    (∀ name, removeIllegal (pyStrip name) = [] →
      _sanitize (some name) = strL "Unknown") ∧
    (∀ name, _sanitize name ≠ []) ∧
    sanitize_filename (strL "A/B: Test?") ++ strL ".pdf" = strL "AB Test.pdf" ∧
    _sanitize (some (strL "A/B: Test?")) ++ strL ".pdf" = strL "AB Test.pdf" := by
  refine ⟨?_, ?_, ?_, ?_, by decide, by decide⟩
  · intro name c hc
    have h1 := mem_of_mem_pyStrip hc
    rw [removeIllegal, List.mem_filter] at h1
    exact ⟨by rw [← Bool.not_eq_true']; exact h1.2, h1.1⟩
  · intro name c hne hc
    rw [_sanitize, pyOrS] at hc
    rw [if_neg (by simpa [List.isEmpty_iff] using hne)] at hc
    rw [removeIllegal, List.mem_filter] at hc
    exact ⟨by rw [← Bool.not_eq_true']; exact hc.2, mem_of_mem_pyStrip hc.1⟩
  · intro name h
    simp [_sanitize, pyOrS, h]
  · intro name
    rw [_sanitize, pyOrS]
    split
    · decide
    · next hx =>
        intro he
        exact hx (by simp [List.isEmpty_iff, he])

/-- C6 witness: the character `A` survives sanitization of
`A/B: Test?`, is not illegal, and came from the input. -/
theorem C6_witness : illegalChar 'A' = false ∧ 'A' ∈ strL "A/B: Test?" :=
  C6_sanitizer.1 (strL "A/B: Test?") 'A' (by decide)

/-- C7: opening the ledger with no file present creates a store whose
single row is the canonical header; appending K item rows and closing,
then reopening, yields exactly the header followed by those K rows in
append order; opening over an existing store preserves every previously
persisted row and appends after them. -/
theorem C7_ledger_round_trip :
    (open_spider none).sheet = [headerRow] ∧
    (∀ items : List PodcastItem,
      (open_spider (runLedger none items).disk).sheet =
        headerRow :: items.map rowOfItem) ∧
    (∀ (prior : List Row) (items : List PodcastItem),
      (runLedger (some prior) items).disk =
        some (prior ++ items.map rowOfItem)) := by
  refine ⟨rfl, ?_, ?_⟩
  · intro items
    simp [runLedger, close_spider, open_spider, foldl_process_item_sheet]
  · intro prior items
    simp [runLedger, close_spider, open_spider, foldl_process_item_sheet]

/-- C8: the repository never calls `inc_value` with the key
`episodes/scheduled` (the only call sites use the four `files/...`
keys), so after any run built from the source's increment sites the
summary value read by `close_spider` is the default 0 — even though
`parse` schedules one detail request for a one-entry accepted listing. -/
theorem C8_scheduled_never_incremented
    (evs : List (Fin srcIncKeys.length)) :
    statGet ((evs.map srcIncKeys.get).foldl incValue [])
      (strL "episodes/scheduled") 0 = 0 ∧
    (parseListing none (fun u => u) [cbOne]).length = 1 := by
  constructor
  · rw [statGet_foldl_not_mem]
    · rfl
    · intro hmem
      obtain ⟨i, _, hi⟩ := List.mem_map.mp hmem
      have hmem2 : srcIncKeys.get i ∈ srcIncKeys := List.get_mem srcIncKeys i.1 i.2
      rw [hi] at hmem2
      exact absurd hmem2 (by decide)
  · decide

/-- C9: `parse_podcast` takes the title (resp. number) from the listing
hint when it is non-empty, falls back to the detail page's `h1` heading
(resp. the `.details h3 > b` node) when the hint is empty, leaves the
field as the empty string when the fallback is also empty, and always
produces both fields (no failure on missing metadata). -/
theorem C9_metadata_fallback (doc : DetailDoc) (m : DetailRequest) :
    (m.meta_title ≠ [] → (parse_podcast_meta doc m).title = some m.meta_title) ∧
    (m.meta_title = [] →
      (parse_podcast_meta doc m).title = some (pyStrip (doc.h1Text.getD []))) ∧
    (m.meta_title = [] → pyStrip (doc.h1Text.getD []) = [] →
      (parse_podcast_meta doc m).title = some []) ∧
    (m.meta_number ≠ [] → (parse_podcast_meta doc m).number = some m.meta_number) ∧
    (m.meta_number = [] →
      (parse_podcast_meta doc m).number = some (pyStrip (doc.detailsBText.getD []))) ∧
    (m.meta_number = [] → pyStrip (doc.detailsBText.getD []) = [] →
      (parse_podcast_meta doc m).number = some []) ∧
    (parse_podcast_meta doc m).title.isSome = true ∧
    (parse_podcast_meta doc m).number.isSome = true := by
  refine ⟨?_, ?_, ?_, ?_, ?_, ?_, ?_, ?_⟩
  · intro h
    simp [parse_podcast_meta, List.isEmpty_iff, h]
  · intro h
    simp [parse_podcast_meta, List.isEmpty_iff, h]
  · intro h h2
    simp [parse_podcast_meta, List.isEmpty_iff, h, h2]
  · intro h
    simp [parse_podcast_meta, List.isEmpty_iff, h]
  · intro h
    simp [parse_podcast_meta, List.isEmpty_iff, h]
  · intro h h2
    simp [parse_podcast_meta, List.isEmpty_iff, h, h2]
  · simp only [parse_podcast_meta]
    split <;> rfl
  · simp only [parse_podcast_meta]
    split <;> rfl

/-- C9 witness: with empty hints, title and number come from the detail
document's heading and secondary metadata node. -/
theorem C9_witness :
    (parse_podcast_meta cDoc cReqEmptyHints).title =
      some (pyStrip (cDoc.h1Text.getD [])) ∧
    (parse_podcast_meta cDoc cReqEmptyHints).number =
      some (pyStrip (cDoc.detailsBText.getD [])) :=
  ⟨(C9_metadata_fallback cDoc cReqEmptyHints).2.1 rfl,
   (C9_metadata_fallback cDoc cReqEmptyHints).2.2.2.2.1 rfl⟩

/-- C10: for every input (including `None` and the empty string) the
date extractor is total and returns either `(None, None)` or a pair
`(date, year)` where the year is exactly four digits and is a suffix of
the date — the fields are never present one without the other. -/
theorem C10_extract_total_shape (raw : Option (List Char)) :
    extract_date_and_year raw = (none, none) ∨
      ∃ d y, extract_date_and_year raw = (some d, some y) ∧ y.length = 4 ∧
        (∀ c ∈ y, isDigitC c = true) ∧ y <:+ d := by
  rcases hs : searchDMY (normalizeWs (raw.getD [])) with _ | ⟨g1, g2⟩
  · left
    simp [extract_date_and_year, hs]
  · right
    obtain ⟨hdig, h4, hsuf, hstrip⟩ := searchDMY_spec hs
    refine ⟨pyStrip g1, g2, by simp [extract_date_and_year, hs], h4, hdig, ?_⟩
    rw [hstrip]
    exact hsuf
